import Mathlib

/-!
Shallow embedding of `include/safe_base.hpp` (boost::numeric::safe_base)
and of the collaborator contracts the spec describes for the parts of the
library that this repository only references (the checked binary-operator
layer and `safe_compare.hpp`).

Modelling conventions:
* The stored representation `Stored` is a fixed-width integer; we model a
  concrete variant by its signedness and bit width (`Variant`), values by
  unbounded `Int`, and the derived class's `validate` predicate by the
  range check of that representation.  Every store into the member `m_t`
  (the `m_t(t)` initialiser and each `m_t = rhs`) performs the integral
  conversion to Stored (`Variant.store`), which wraps an out-of-width
  value modulo 2^bits; validation in the constructor and in operator= is
  performed on the raw, unconverted value, as in the source.
* The exception policy is the one degree of freedom the spec leaves open:
  a policy may throw (never return) or log-and-return.  Each mutating
  member is therefore embedded twice:
  - `...T` (throwing policy): execution stops at the first call into the
    policy; the pair returned is (the error raised, if any; the object's
    state at that point).  Statements made after a raise in the C++ body
    never execute.
  - `...R` (returning policy): the policy call returns normally, so the
    whole C++ body executes; the pair returned is (the list of errors
    dispatched to the policy, in order; the final state).
* Postfix increment returns `Derived` (a by-value copy) while postfix
  decrement returns `Derived &` (a reference to the object itself); the
  small inductive `Ret` records which of the two a caller received.
-/

namespace SafeNumerics

/-- The two error entry points of the exception-policy contract. -/
inductive ErrKind
  | range
  | overflow
deriving DecidableEq

/-- An error dispatched to the exception policy: entry point and message. -/
structure Err where
  kind : ErrKind
  msg : String
deriving DecidableEq

/-- E::range_error("Invalid value"), raised by the value constructor and
by the protected validate() member. -/
def rangeInvalid : Err := ⟨ErrKind.range, "Invalid value"⟩

/-- E::range_error("Invalid value passed on assignment"), raised by
operator=. -/
def rangeAssign : Err := ⟨ErrKind.range, "Invalid value passed on assignment"⟩

/-- E::overflow_error("Overflow on increment"), raised by the postfix
operators (the post-decrement body reuses the increment message) and by
operator~. -/
def overflowInc : Err := ⟨ErrKind.overflow, "Overflow on increment"⟩

/-- Modelled from the spec: the overflow error dispatched by the checked
binary-operator layer, which is absent from the source (present only as
disabled commentary); per the spec it "invokes overflow_error on failure"
after range-checking the exact result against the destination domain. -/
def overflowBin : Err := ⟨ErrKind.overflow, "Overflow in binary operation"⟩

/-- A concrete variant of the stored representation: signedness and bit
width.  The derived class's validate predicate accepts exactly the values
representable in this type. -/
structure Variant where
  signed : Bool
  bits : Nat
deriving DecidableEq

/-- Smallest representable value of the variant's representation. -/
def Variant.lo (v : Variant) : Int :=
  if v.signed then -((2 : Int) ^ (v.bits - 1)) else 0

/-- Largest representable value of the variant's representation. -/
def Variant.hi (v : Variant) : Int :=
  if v.signed then (2 : Int) ^ (v.bits - 1) - 1 else (2 : Int) ^ v.bits - 1

/-- The derived class's validate(raw) -> bool capability: membership of
the raw value in the variant's representable domain. -/
def Variant.validate (v : Variant) (x : Int) : Bool :=
  decide (v.lo ≤ x) && decide (x ≤ v.hi)

/-- The integral conversion performed by every store into the member
`m_t` of type Stored (the `m_t(t)` initialiser and each `m_t = rhs`
assignment): the value is reduced modulo 2^bits into the
representation's range, two's-complement wrap-around for signed
representations.  An in-range value converts to itself. -/
def Variant.store (v : Variant) (x : Int) : Int :=
  if v.signed then
    (x + (2 : Int) ^ (v.bits - 1)) % (2 : Int) ^ v.bits - (2 : Int) ^ (v.bits - 1)
  else x % (2 : Int) ^ v.bits

/-- Signed 8-bit variant, domain [-128, 127]. -/
def i8v : Variant := ⟨true, 8⟩

/-- Unsigned 8-bit variant, domain [0, 255]. -/
def u8v : Variant := ⟨false, 8⟩

/-- Signed 32-bit variant. -/
def i32v : Variant := ⟨true, 32⟩

/-- Unsigned 32-bit variant, domain [0, 4294967295]. -/
def u32v : Variant := ⟨false, 32⟩

/-- A safe_base object: its variant (fixed at instantiation) and the
stored datum m_t. -/
structure SafeState where
  variant : Variant
  m_t : Int
deriving DecidableEq

/-- The object's datum is within its variant's representable domain (the
invariant the spec asserts for every observable SafeValue). -/
def validState (s : SafeState) : Bool :=
  s.variant.validate s.m_t

/-- What a caller of a unary member receives: a by-value copy holding a
datum (return type Derived) or a reference to the object itself (return
type Derived &). -/
inductive Ret
  | copy (v : Int)
  | selfRef
deriving DecidableEq

/-- Reading the received result later, when the object has since moved to
state `current`: a copy is independent, a self-reference reads through to
the object's current datum. -/
def readRet (r : Ret) (current : SafeState) : Int :=
  match r with
  | Ret.copy v => v
  | Ret.selfRef => current.m_t

/-! ### Construction (safe_base.hpp lines 54-68)

The value constructor initialises `m_t(t)` in the member-initialiser list
— converting the argument to Stored, wrapping an out-of-width value —
and only then runs `validate` on the RAW argument `t`; on failure it
calls `E::range_error("Invalid value")`.  The (converted) datum is
therefore stored before validation runs. -/

/-- Value construction under a throwing policy: the converted datum is
stored, then the raw argument is validated; on failure range_error
throws out of the constructor (the object never becomes observable). -/
def constructT (v : Variant) (t : Int) : Option Err × SafeState :=
  (if v.validate t then none else some rangeInvalid, ⟨v, v.store t⟩)

/-- Value construction under a returning policy: the converted datum is
stored, range_error is dispatched and returns, and the object exists
holding the conversion of the (possibly out-of-range) argument. -/
def constructR (v : Variant) (t : Int) : List Err × SafeState :=
  (if v.validate t then [] else [rangeInvalid], ⟨v, v.store t⟩)

/-! ### Assignment (safe_base.hpp lines 89-98)

`operator=` validates `rhs`, calls range_error on failure, and then
unconditionally executes `m_t = rhs`, which converts rhs to Stored
(wrapping an out-of-width value). -/

/-- operator= under a throwing policy: on invalid rhs the range_error
throw happens before `m_t = rhs`, so the datum is unchanged. -/
def assignT (s : SafeState) (rhs : Int) : Option Err × SafeState :=
  if s.variant.validate rhs then (none, ⟨s.variant, s.variant.store rhs⟩)
  else (some rangeAssign, s)

/-- operator= under a returning policy: range_error returns and the body
continues, so `m_t = rhs` executes even for an invalid rhs, storing the
conversion of rhs to the stored representation. -/
def assignR (s : SafeState) (rhs : Int) : List Err × SafeState :=
  (if s.variant.validate rhs then [] else [rangeAssign],
   ⟨s.variant, s.variant.store rhs⟩)

/-! ### The checked binary-operator layer

Modelled from the spec: the per-operator checked arithmetic referenced by
this core is absent from the given source (present only as disabled
commentary).  Per the spec, each checked operation computes the
promoted-representation exact result (the promotion policy's purpose is to
pick a representation holding the mathematically exact result),
range-checks it against the destination domain, and invokes
overflow_error on failure.  For the class's own compound forms
`self = self OP rhs` the destination is the object's variant. -/

/-- Modelled from the spec: checked binary-operation result delivery.
`exact` is the mathematically exact result; it is range-checked against
the destination variant `v` and overflow_error is invoked on failure. -/
def checkedOpT (v : Variant) (exact : Int) : Option Err × Int :=
  (if v.validate exact then none else some overflowBin, exact)

/-! ### Compound assignment (safe_base.hpp lines 99-149)

`operator+=` is `m_t = derived() + rhs` — it commits the checked sum
directly to the datum without going through `operator=`.  All the other
compound operators are `*this = *this OP rhs`, i.e. the checked binary
operator followed by `operator=`.  `operator^=` is written
`*this = *this * rhs`: it uses multiplication, not bitwise-xor. -/

/-- operator+= under a throwing policy: `m_t = derived() + rhs`; the
checked + raises overflow_error before the store when the exact sum is
out of the destination domain; the store converts to Stored. -/
def addAssignT (s : SafeState) (rhs : Int) : Option Err × SafeState :=
  match checkedOpT s.variant (s.m_t + rhs) with
  | (none, r) => (none, ⟨s.variant, s.variant.store r⟩)
  | (some e, _) => (some e, s)

/-- operator-= under a throwing policy: `*this = *this - rhs` (checked
subtraction, then operator=). -/
def subAssignT (s : SafeState) (rhs : Int) : Option Err × SafeState :=
  match checkedOpT s.variant (s.m_t - rhs) with
  | (none, r) => assignT s r
  | (some e, _) => (some e, s)

/-- operator*= under a throwing policy: `*this = *this * rhs`. -/
def mulAssignT (s : SafeState) (rhs : Int) : Option Err × SafeState :=
  match checkedOpT s.variant (s.m_t * rhs) with
  | (none, r) => assignT s r
  | (some e, _) => (some e, s)

/-- operator/= under a throwing policy: `*this = *this / rhs`, with the
exact quotient truncated toward zero as in C++ (a zero right-hand
operand is undefined behaviour in the source; the embedding leaves it at
Lean's total Int.tdiv, a case no claim exercises). -/
def divAssignT (s : SafeState) (rhs : Int) : Option Err × SafeState :=
  match checkedOpT s.variant (Int.tdiv s.m_t rhs) with
  | (none, r) => assignT s r
  | (some e, _) => (some e, s)

/-- operator%= under a throwing policy: `*this = *this % rhs`, with the
truncated remainder as in C++ (a zero right-hand operand is left at
Lean's total Int.tmod, a case no claim exercises). -/
def modAssignT (s : SafeState) (rhs : Int) : Option Err × SafeState :=
  match checkedOpT s.variant (Int.tmod s.m_t rhs) with
  | (none, r) => assignT s r
  | (some e, _) => (some e, s)

/-- operator|= under a throwing policy: `*this = *this | rhs`. -/
def orAssignT (s : SafeState) (rhs : Int) : Option Err × SafeState :=
  match checkedOpT s.variant (Int.lor s.m_t rhs) with
  | (none, r) => assignT s r
  | (some e, _) => (some e, s)

/-- operator&= under a throwing policy: `*this = *this & rhs`. -/
def andAssignT (s : SafeState) (rhs : Int) : Option Err × SafeState :=
  match checkedOpT s.variant (Int.land s.m_t rhs) with
  | (none, r) => assignT s r
  | (some e, _) => (some e, s)

/-- operator^= under a throwing policy, exactly as the source writes it:
the body is `*this = *this * rhs` — checked MULTIPLICATION followed by
operator=, not bitwise-xor. -/
def xorAssignT (s : SafeState) (rhs : Int) : Option Err × SafeState :=
  match checkedOpT s.variant (s.m_t * rhs) with
  | (none, r) => assignT s r
  | (some e, _) => (some e, s)

/-- operator>>= under a throwing policy: `*this = *this >> rhs`.
Modelled from the spec: the checked shift layer rejects a negative
left-hand operand and a shift amount exceeding the operand's bit width,
then range-checks the exact shifted value. -/
def shrAssignT (s : SafeState) (rhs : Int) : Option Err × SafeState :=
  if s.m_t < 0 then (some overflowBin, s)
  else if (s.variant.bits : Int) < rhs then (some overflowBin, s)
  else match checkedOpT s.variant (Int.tdiv s.m_t ((2 : Int) ^ rhs.toNat)) with
    | (none, r) => assignT s r
    | (some e, _) => (some e, s)

/-- operator<<= under a throwing policy: `*this = *this << rhs`.
Modelled from the spec: the checked shift layer rejects a negative
left-hand operand and a shift amount exceeding the operand's bit width,
then range-checks the exact shifted value. -/
def shlAssignT (s : SafeState) (rhs : Int) : Option Err × SafeState :=
  if s.m_t < 0 then (some overflowBin, s)
  else if (s.variant.bits : Int) < rhs then (some overflowBin, s)
  else match checkedOpT s.variant (s.m_t * (2 : Int) ^ rhs.toNat) with
    | (none, r) => assignT s r
    | (some e, _) => (some e, s)

/-! ### Increment / decrement and the other unary members
(safe_base.hpp lines 150-200) -/

/-- Prefix operator++ under a throwing policy: `*this = *this + 1`, the
checked + followed by operator=. -/
def preIncT (s : SafeState) : Option Err × SafeState :=
  match checkedOpT s.variant (s.m_t + 1) with
  | (none, r) => assignT s r
  | (some e, _) => (some e, s)

/-- Prefix operator-- under a throwing policy: `*this = *this - 1`. -/
def preDecT (s : SafeState) : Option Err × SafeState :=
  match checkedOpT s.variant (s.m_t - 1) with
  | (none, r) => assignT s r
  | (some e, _) => (some e, s)

/-- Postfix operator++(int) under a throwing policy.  The body copies the
datum into a local `t`, validates `*this + 1` (overflow_error
"Overflow on increment" on failure), then increments the LOCAL `t` and
returns `derived()` by value: the member `m_t` is never modified, and the
returned copy holds the unincremented datum. -/
def postIncT (s : SafeState) : Option Err × SafeState × Ret :=
  if s.variant.validate (s.m_t + 1) then (none, s, Ret.copy s.m_t)
  else (some overflowInc, s, Ret.copy s.m_t)

/-- Postfix operator--(int) under a throwing policy.  Same body shape as
postfix increment (the error message still says "Overflow on increment"),
decrementing a local that is then discarded, but the return type is
`Derived &`: the caller receives a live reference to the object itself,
not a copy. -/
def postDecT (s : SafeState) : Option Err × SafeState × Ret :=
  if s.variant.validate (s.m_t - 1) then (none, s, Ret.selfRef)
  else (some overflowInc, s, Ret.selfRef)

/-- The static_assert guarding unary minus: it instantiates only when the
stored representation is signed; otherwise the build fails. -/
def unaryMinusCompiles (v : Variant) : Bool := v.signed

/-- Unary operator-() body under a throwing policy (only reachable when
the static_assert holds): `*this = 0 - *this`, the checked subtraction
followed by operator=. -/
def negT (s : SafeState) : Option Err × SafeState :=
  match checkedOpT s.variant (0 - s.m_t) with
  | (none, r) => assignT s r
  | (some e, _) => (some e, s)

/-- Unary minus including its build-time guard: applying it to an
unsigned-representation variant is a compile error (`none` — the
operation never runs, so no runtime error can surface); for a signed
variant the body executes. -/
def negChecked (s : SafeState) : Option (Option Err × SafeState) :=
  if unaryMinusCompiles s.variant then some (negT s) else none

/-- The static_assert guarding operator~: signed representations only. -/
def complCompiles (v : Variant) : Bool := v.signed

/-- Unary operator~() body under a throwing policy: validates `~m_t`
(for a signed two's-complement representation the exact complement is
`-m_t - 1`), raising overflow_error on failure; the member is never
modified and `derived()` is returned by value. -/
def complT (s : SafeState) : Option Err × SafeState :=
  if s.variant.validate (-s.m_t - 1) then (none, s)
  else (some overflowInc, s)

/-! ### SafeCompare

Modelled from the spec: `safe_compare.hpp` is included by safe_base.hpp
but is not part of this repository's sources.  Per the spec, it provides
less_than / greater_than / equal for two operands of arbitrary, possibly
differently-signed representations.  Algorithm: operands sharing
signedness are compared directly in a sufficiently wide common
representation (exact); if signedness differs, a negative operand is
always strictly less than a non-negative one regardless of magnitude, and
two non-negative operands are compared by magnitude exactly.  `equal`
follows from not less_than(a,b) and not less_than(b,a). -/

/-- An operand of an arbitrary integer representation: the representation
descriptor and the held value. -/
structure TypedInt where
  rep : Variant
  val : Int
deriving DecidableEq

/-- The operand's value is representable in its representation. -/
def TypedInt.inRange (a : TypedInt) : Bool :=
  a.rep.validate a.val

/-- Modelled from the spec: safe_compare::less_than.  Same signedness:
direct exact comparison in a wide common representation.  Mixed
signedness: a negative operand is strictly less than a non-negative one;
two non-negative operands are compared by magnitude. -/
def less_than (a b : TypedInt) : Bool :=
  if a.rep.signed = b.rep.signed then decide (a.val < b.val)
  else if a.val < 0 then true
  else if b.val < 0 then false
  else decide (a.val < b.val)

/-- Modelled from the spec: safe_compare::greater_than, less_than with
the operands swapped. -/
def greater_than (a b : TypedInt) : Bool :=
  less_than b a

/-- Modelled from the spec: safe_compare::equal, following directly from
not less_than(a,b) and not less_than(b,a). -/
def equal (a b : TypedInt) : Bool :=
  !less_than a b && !less_than b a

/-- The stored datum of a safe_base object viewed as a SafeCompare
operand of the object's representation. -/
def SafeState.asTyped (s : SafeState) : TypedInt :=
  ⟨s.variant, s.m_t⟩

/-! ### Relational operators (safe_base.hpp lines 204-227)

Each delegates the stored datum and the right-hand operand to
SafeCompare; operator!=, operator>= and operator<= are the literal
negations of equal, less_than and greater_than respectively. -/

/-- operator<: safe_compare::less_than(m_t, rhs). -/
def op_lt (s : SafeState) (rhs : TypedInt) : Bool :=
  less_than s.asTyped rhs

/-- operator>: safe_compare::greater_than(m_t, rhs). -/
def op_gt (s : SafeState) (rhs : TypedInt) : Bool :=
  greater_than s.asTyped rhs

/-- operator==: safe_compare::equal(m_t, rhs). -/
def op_eq (s : SafeState) (rhs : TypedInt) : Bool :=
  equal s.asTyped rhs

/-- operator!=: ! safe_compare::equal(m_t, rhs). -/
def op_ne (s : SafeState) (rhs : TypedInt) : Bool :=
  !equal s.asTyped rhs

/-- operator>=: ! safe_compare::less_than(m_t, rhs). -/
def op_ge (s : SafeState) (rhs : TypedInt) : Bool :=
  !less_than s.asTyped rhs

/-- operator<=: ! safe_compare::greater_than(m_t, rhs). -/
def op_le (s : SafeState) (rhs : TypedInt) : Bool :=
  !greater_than s.asTyped rhs

/-- Under a throwing exception policy, every modelled mutating member of
safe_base — assignment, all ten compound assignments, the four
increment/decrement forms and the unary operators — leaves the object in
a state whose datum the variant's validate predicate accepts (on a
raise, the state at the throw point). -/
def InvariantPreserved (s : SafeState) : Prop :=
  (∀ r : Int, validState (assignT s r).2 = true) ∧
  (∀ r : Int, validState (addAssignT s r).2 = true) ∧
  (∀ r : Int, validState (subAssignT s r).2 = true) ∧
  (∀ r : Int, validState (mulAssignT s r).2 = true) ∧
  (∀ r : Int, validState (divAssignT s r).2 = true) ∧
  (∀ r : Int, validState (modAssignT s r).2 = true) ∧
  (∀ r : Int, validState (orAssignT s r).2 = true) ∧
  (∀ r : Int, validState (andAssignT s r).2 = true) ∧
  (∀ r : Int, validState (xorAssignT s r).2 = true) ∧
  (∀ r : Int, validState (shrAssignT s r).2 = true) ∧
  (∀ r : Int, validState (shlAssignT s r).2 = true) ∧
  validState (preIncT s).2 = true ∧
  validState (preDecT s).2 = true ∧
  validState (postIncT s).2.1 = true ∧
  validState (postDecT s).2.1 = true ∧
  validState (negT s).2 = true ∧
  validState (complT s).2 = true

/-- Every modelled mutating member dispatches an error to the exception
policy whenever the prospective value it validates (the raw assignment
argument, or the exact result the checked layer delivers) lies outside
the variant's domain: no path commits silently past a failed
validation. -/
def DispatchesOnInvalid (s : SafeState) : Prop :=
  (∀ r : Int, s.variant.validate r = false →
    (assignT s r).1 = some rangeAssign) ∧
  (∀ r : Int, s.variant.validate (s.m_t + r) = false →
    (addAssignT s r).1 = some overflowBin) ∧
  (∀ r : Int, s.variant.validate (s.m_t - r) = false →
    (subAssignT s r).1 = some overflowBin) ∧
  (∀ r : Int, s.variant.validate (s.m_t * r) = false →
    (mulAssignT s r).1 = some overflowBin) ∧
  (∀ r : Int, s.variant.validate (Int.tdiv s.m_t r) = false →
    (divAssignT s r).1 = some overflowBin) ∧
  (∀ r : Int, s.variant.validate (Int.tmod s.m_t r) = false →
    (modAssignT s r).1 = some overflowBin) ∧
  (∀ r : Int, s.variant.validate (Int.lor s.m_t r) = false →
    (orAssignT s r).1 = some overflowBin) ∧
  (∀ r : Int, s.variant.validate (Int.land s.m_t r) = false →
    (andAssignT s r).1 = some overflowBin) ∧
  (∀ r : Int, s.variant.validate (s.m_t * r) = false →
    (xorAssignT s r).1 = some overflowBin) ∧
  (∀ r : Int, s.variant.validate (Int.tdiv s.m_t ((2 : Int) ^ r.toNat)) = false →
    (shrAssignT s r).1 = some overflowBin) ∧
  (∀ r : Int, s.variant.validate (s.m_t * (2 : Int) ^ r.toNat) = false →
    (shlAssignT s r).1 = some overflowBin) ∧
  (s.variant.validate (s.m_t + 1) = false → (preIncT s).1 = some overflowBin) ∧
  (s.variant.validate (s.m_t - 1) = false → (preDecT s).1 = some overflowBin) ∧
  (s.variant.validate (s.m_t + 1) = false → (postIncT s).1 = some overflowInc) ∧
  (s.variant.validate (s.m_t - 1) = false → (postDecT s).1 = some overflowInc) ∧
  (s.variant.validate (0 - s.m_t) = false → (negT s).1 = some overflowBin) ∧
  (s.variant.validate (-s.m_t - 1) = false → (complT s).1 = some overflowInc)

/-! ### Helper lemmas -/

lemma Variant.store_valid (v : Variant) (x : Int) :
    v.validate (v.store x) = true := by
  have hp : (0 : Int) < 2 ^ v.bits := pow_pos (by norm_num) _
  have h3 : (2 : Int) ^ v.bits ≤ 2 * 2 ^ (v.bits - 1) := by
    rcases Nat.eq_zero_or_pos v.bits with h0 | h1
    · rw [h0]
      norm_num
    · obtain ⟨n, hn⟩ : ∃ n, v.bits = n + 1 :=
        ⟨v.bits - 1, (Nat.succ_pred_eq_of_pos h1).symm⟩
      rw [hn, Nat.add_sub_cancel, pow_succ, mul_comm]
  unfold Variant.store Variant.validate Variant.lo Variant.hi
  cases hs : v.signed
  · have h1 := Int.emod_nonneg x (ne_of_gt hp)
    have h2 := Int.emod_lt_of_pos x hp
    simp only [Bool.false_eq_true, if_false, Bool.and_eq_true, decide_eq_true_eq]
    omega
  · have h1 := Int.emod_nonneg (x + 2 ^ (v.bits - 1)) (ne_of_gt hp)
    have h2 := Int.emod_lt_of_pos (x + 2 ^ (v.bits - 1)) hp
    simp only [if_true, Bool.and_eq_true, decide_eq_true_eq]
    omega

lemma assignT_valid (s : SafeState) (rhs : Int) (h : validState s = true) :
    validState (assignT s rhs).2 = true := by
  unfold assignT
  by_cases hc : s.variant.validate rhs = true
  · simp [hc, validState, Variant.store_valid]
  · simp [Bool.not_eq_true] at hc
    simp [hc]
    exact h

lemma addAssignT_valid (s : SafeState) (rhs : Int) (h : validState s = true) :
    validState (addAssignT s rhs).2 = true := by
  unfold addAssignT checkedOpT
  by_cases hc : s.variant.validate (s.m_t + rhs) = true
  · simp [hc, validState, Variant.store_valid]
  · simp [Bool.not_eq_true] at hc
    simp [hc]
    exact h

lemma subAssignT_valid (s : SafeState) (rhs : Int) (h : validState s = true) :
    validState (subAssignT s rhs).2 = true := by
  unfold subAssignT checkedOpT
  by_cases hc : s.variant.validate (s.m_t - rhs) = true
  · simp [hc]
    exact assignT_valid s _ h
  · simp [Bool.not_eq_true] at hc
    simp [hc]
    exact h

lemma mulAssignT_valid (s : SafeState) (rhs : Int) (h : validState s = true) :
    validState (mulAssignT s rhs).2 = true := by
  unfold mulAssignT checkedOpT
  by_cases hc : s.variant.validate (s.m_t * rhs) = true
  · simp [hc]
    exact assignT_valid s _ h
  · simp [Bool.not_eq_true] at hc
    simp [hc]
    exact h

lemma divAssignT_valid (s : SafeState) (rhs : Int) (h : validState s = true) :
    validState (divAssignT s rhs).2 = true := by
  unfold divAssignT checkedOpT
  by_cases hc : s.variant.validate (Int.tdiv s.m_t rhs) = true
  · simp [hc]
    exact assignT_valid s _ h
  · simp [Bool.not_eq_true] at hc
    simp [hc]
    exact h

lemma modAssignT_valid (s : SafeState) (rhs : Int) (h : validState s = true) :
    validState (modAssignT s rhs).2 = true := by
  unfold modAssignT checkedOpT
  by_cases hc : s.variant.validate (Int.tmod s.m_t rhs) = true
  · simp [hc]
    exact assignT_valid s _ h
  · simp [Bool.not_eq_true] at hc
    simp [hc]
    exact h

lemma shrAssignT_valid (s : SafeState) (rhs : Int) (h : validState s = true) :
    validState (shrAssignT s rhs).2 = true := by
  unfold shrAssignT checkedOpT
  by_cases h0 : s.m_t < 0
  · simp [h0]
    exact h
  · by_cases h1 : (s.variant.bits : Int) < rhs
    · simp [h0, h1]
      exact h
    · by_cases hc : s.variant.validate (Int.tdiv s.m_t ((2 : Int) ^ rhs.toNat)) = true
      · simp [h0, h1, hc]
        exact assignT_valid s _ h
      · simp [Bool.not_eq_true] at hc
        simp [h0, h1, hc]
        exact h

lemma shlAssignT_valid (s : SafeState) (rhs : Int) (h : validState s = true) :
    validState (shlAssignT s rhs).2 = true := by
  unfold shlAssignT checkedOpT
  by_cases h0 : s.m_t < 0
  · simp [h0]
    exact h
  · by_cases h1 : (s.variant.bits : Int) < rhs
    · simp [h0, h1]
      exact h
    · by_cases hc : s.variant.validate (s.m_t * (2 : Int) ^ rhs.toNat) = true
      · simp [h0, h1, hc]
        exact assignT_valid s _ h
      · simp [Bool.not_eq_true] at hc
        simp [h0, h1, hc]
        exact h

lemma orAssignT_valid (s : SafeState) (rhs : Int) (h : validState s = true) :
    validState (orAssignT s rhs).2 = true := by
  unfold orAssignT checkedOpT
  by_cases hc : s.variant.validate (Int.lor s.m_t rhs) = true
  · simp [hc]
    exact assignT_valid s _ h
  · simp [Bool.not_eq_true] at hc
    simp [hc]
    exact h

lemma andAssignT_valid (s : SafeState) (rhs : Int) (h : validState s = true) :
    validState (andAssignT s rhs).2 = true := by
  unfold andAssignT checkedOpT
  by_cases hc : s.variant.validate (Int.land s.m_t rhs) = true
  · simp [hc]
    exact assignT_valid s _ h
  · simp [Bool.not_eq_true] at hc
    simp [hc]
    exact h

lemma xorAssignT_valid (s : SafeState) (rhs : Int) (h : validState s = true) :
    validState (xorAssignT s rhs).2 = true := by
  unfold xorAssignT checkedOpT
  by_cases hc : s.variant.validate (s.m_t * rhs) = true
  · simp [hc]
    exact assignT_valid s _ h
  · simp [Bool.not_eq_true] at hc
    simp [hc]
    exact h

lemma preIncT_valid (s : SafeState) (h : validState s = true) :
    validState (preIncT s).2 = true := by
  unfold preIncT checkedOpT
  by_cases hc : s.variant.validate (s.m_t + 1) = true
  · simp [hc]
    exact assignT_valid s _ h
  · simp [Bool.not_eq_true] at hc
    simp [hc]
    exact h

lemma preDecT_valid (s : SafeState) (h : validState s = true) :
    validState (preDecT s).2 = true := by
  unfold preDecT checkedOpT
  by_cases hc : s.variant.validate (s.m_t - 1) = true
  · simp [hc]
    exact assignT_valid s _ h
  · simp [Bool.not_eq_true] at hc
    simp [hc]
    exact h

lemma postIncT_valid (s : SafeState) (h : validState s = true) :
    validState (postIncT s).2.1 = true := by
  unfold postIncT
  by_cases hc : s.variant.validate (s.m_t + 1) = true
  · simp [hc]
    exact h
  · simp [Bool.not_eq_true] at hc
    simp [hc]
    exact h

lemma postDecT_valid (s : SafeState) (h : validState s = true) :
    validState (postDecT s).2.1 = true := by
  unfold postDecT
  by_cases hc : s.variant.validate (s.m_t - 1) = true
  · simp [hc]
    exact h
  · simp [Bool.not_eq_true] at hc
    simp [hc]
    exact h

lemma negT_valid (s : SafeState) (h : validState s = true) :
    validState (negT s).2 = true := by
  unfold negT checkedOpT
  by_cases hc : s.variant.validate (-s.m_t) = true
  · simp [hc]
    exact assignT_valid s _ h
  · simp [Bool.not_eq_true] at hc
    simp [hc]
    exact h

lemma complT_valid (s : SafeState) (h : validState s = true) :
    validState (complT s).2 = true := by
  unfold complT
  by_cases hc : s.variant.validate (-s.m_t - 1) = true
  · simp [hc]
    exact h
  · simp [Bool.not_eq_true] at hc
    simp [hc]
    exact h

lemma validate_nonneg (v : Variant) (x : Int) (hs : v.signed = false)
    (h : v.validate x = true) : 0 ≤ x := by
  simp [Variant.validate, Variant.lo, hs] at h
  exact h.1

lemma less_than_eq_decide (a b : TypedInt) (ha : a.inRange = true)
    (hb : b.inRange = true) : less_than a b = decide (a.val < b.val) := by
  unfold less_than
  by_cases hs : a.rep.signed = b.rep.signed
  · simp [hs]
  · simp only [hs, if_false]
    by_cases h1 : a.val < 0
    · have hbs : b.rep.signed = false := by
        cases hA : a.rep.signed
        · exact absurd (validate_nonneg a.rep a.val hA ha) (by omega)
        · cases hB : b.rep.signed
          · rfl
          · exact absurd (hA.trans hB.symm) hs
      have hb0 : 0 ≤ b.val := validate_nonneg b.rep b.val hbs hb
      simp [h1]
      omega
    · by_cases h2 : b.val < 0
      · have has : a.rep.signed = false := by
          cases hB : b.rep.signed
          · exact absurd (validate_nonneg b.rep b.val hB hb) (by omega)
          · cases hA : a.rep.signed
            · rfl
            · exact absurd (hA.trans hB.symm) hs
        have ha0 : 0 ≤ a.val := validate_nonneg a.rep a.val has ha
        simp [h1, h2]
        omega
      · simp [h1, h2]

/-! ### Claim theorems -/

/-- C1: with the variant's validation predicate being the full
representable range of the stored representation, every store into m_t
performs the integral conversion into that range, so every observable
SafeValue holds an in-domain datum: construction yields a valid state
under a throwing and under a returning policy, operator= under a
returning policy commits only converted (hence in-domain) data, every
modelled mutating member applied to a valid state leaves a valid state,
and every mutating path dispatches range_error / overflow_error to the
exception policy whenever the prospective value it revalidates lies
outside the domain, before the operation completes. -/
theorem C1_invariant_validation :
    (∀ (v : Variant) (x : Int), v.validate (v.store x) = true) ∧
    (∀ (v : Variant) (t : Int),
      validState (constructT v t).2 = true ∧
      validState (constructR v t).2 = true ∧
      (v.validate t = false → (constructT v t).1 = some rangeInvalid)) ∧
    (∀ (s : SafeState) (r : Int), validState (assignR s r).2 = true) ∧
    (∀ s : SafeState, validState s = true → InvariantPreserved s) ∧
    (∀ s : SafeState, DispatchesOnInvalid s) := by
  refine ⟨Variant.store_valid, ?_, ?_, ?_, ?_⟩
  · intro v t
    refine ⟨?_, ?_, ?_⟩
    · simp [constructT, validState, Variant.store_valid]
    · simp [constructR, validState, Variant.store_valid]
    · intro h
      simp [constructT, h]
  · intro s r
    simp [assignR, validState, Variant.store_valid]
  · intro s h
    exact ⟨fun r => assignT_valid s r h,
      fun r => addAssignT_valid s r h,
      fun r => subAssignT_valid s r h,
      fun r => mulAssignT_valid s r h,
      fun r => divAssignT_valid s r h,
      fun r => modAssignT_valid s r h,
      fun r => orAssignT_valid s r h,
      fun r => andAssignT_valid s r h,
      fun r => xorAssignT_valid s r h,
      fun r => shrAssignT_valid s r h,
      fun r => shlAssignT_valid s r h,
      preIncT_valid s h,
      preDecT_valid s h,
      postIncT_valid s h,
      postDecT_valid s h,
      negT_valid s h,
      complT_valid s h⟩
  · intro s
    refine ⟨?_, ?_, ?_, ?_, ?_, ?_, ?_, ?_, ?_, ?_, ?_, ?_, ?_, ?_, ?_, ?_, ?_⟩
    · intro r h
      simp [assignT, h]
    · intro r h
      simp [addAssignT, checkedOpT, h]
    · intro r h
      simp [subAssignT, checkedOpT, h]
    · intro r h
      simp [mulAssignT, checkedOpT, h]
    · intro r h
      simp [divAssignT, checkedOpT, h]
    · intro r h
      simp [modAssignT, checkedOpT, h]
    · intro r h
      simp [orAssignT, checkedOpT, h]
    · intro r h
      simp [andAssignT, checkedOpT, h]
    · intro r h
      simp [xorAssignT, checkedOpT, h]
    · intro r h
      unfold shrAssignT checkedOpT
      by_cases h0 : s.m_t < 0
      · simp [h0]
      · by_cases h1 : (s.variant.bits : Int) < r
        · simp [h0, h1]
        · simp [h0, h1, h]
    · intro r h
      unfold shlAssignT checkedOpT
      by_cases h0 : s.m_t < 0
      · simp [h0]
      · by_cases h1 : (s.variant.bits : Int) < r
        · simp [h0, h1]
        · simp [h0, h1, h]
    · intro h
      simp [preIncT, checkedOpT, h]
    · intro h
      simp [preDecT, checkedOpT, h]
    · intro h
      simp [postIncT, h]
    · intro h
      simp [postDecT, h]
    · intro h
      rw [zero_sub] at h
      simp [negT, checkedOpT, h]
    · intro h
      simp [complT, h]

/-- C1 (witness): the invariant-and-validation theorem applied at a
concrete valid unsigned 8-bit state, for the preservation clause and for
the dispatch clause. -/
theorem C1_invariant_validation_witness :
    validState ⟨u8v, 5⟩ = true ∧
    validState (assignT ⟨u8v, 5⟩ 7).2 = true ∧
    u8v.validate 300 = false ∧
    (assignT ⟨u8v, 5⟩ 300).1 = some rangeAssign :=
  ⟨by decide,
   (C1_invariant_validation.2.2.2.1 ⟨u8v, 5⟩ (by decide)).1 7,
   by decide,
   (C1_invariant_validation.2.2.2.2 ⟨u8v, 5⟩).1 300 (by decide)⟩

/-- C2 (counterexample): the claim fails as stated.  After constructing
an unsigned 32-bit SafeValue from 4294967295, assigning 4294967296
dispatches range_error, but under an exception policy that returns
normally the body continues with `m_t = rhs`: the assignment takes
effect — the datum becomes the converted value 0 (4294967296 wraps
modulo 2^32) — so the previously stored datum is NOT left unchanged. -/
theorem C2_counterexample :
    (constructR u32v 4294967295).1 = [] ∧
    (assignR (constructR u32v 4294967295).2 4294967296).1 = [rangeAssign] ∧
    (assignR (constructR u32v 4294967295).2 4294967296).2.m_t = 0 ∧
    (assignR (constructR u32v 4294967295).2 4294967296).2.m_t ≠ 4294967295 := by
  decide

/-- C2 (amended): assignment of an out-of-domain value always dispatches
range_error; under a throwing policy the throw precedes `m_t = rhs`, so
the prior datum is left unchanged, while under a returning policy the
unconditional `m_t = rhs` overwrites the datum with the conversion of
the out-of-range input into the stored representation. -/
theorem C2_amended_assign :
    ∀ (s : SafeState) (rhs : Int), s.variant.validate rhs = false →
    assignT s rhs = (some rangeAssign, s) ∧
    (assignR s rhs).1 = [rangeAssign] ∧
    (assignR s rhs).2.m_t = s.variant.store rhs := by
  intro s rhs h
  unfold assignT assignR
  simp [h]

/-- C2 (witness): the amended assignment theorem at the claim's concrete
unsigned 32-bit boundary input. -/
theorem C2_amended_assign_witness :
    u32v.validate 4294967296 = false ∧
    assignT ⟨u32v, 4294967295⟩ 4294967296 = (some rangeAssign, ⟨u32v, 4294967295⟩) :=
  ⟨by decide, (C2_amended_assign ⟨u32v, 4294967295⟩ 4294967296 (by decide)).1⟩

/-- C3 (code bug): postfix increment at the failing input.  For an
unsigned 8-bit SafeValue holding 5, the prospective result 6 validates,
no error is dispatched — and yet the stored datum is still 5 afterwards:
the body increments a local copy `t` that is then discarded, so the
member `m_t` is never mutated to x + 1 as the claim (and the standard
postfix contract the spec states) requires. -/
theorem C3_postincrement_bug :
    u8v.validate (5 + 1) = true ∧
    postIncT ⟨u8v, 5⟩ = (none, ⟨u8v, 5⟩, Ret.copy 5) ∧
    (postIncT ⟨u8v, 5⟩).2.1.m_t ≠ 6 := by
  decide

/-- C4: for a signed 8-bit SafeValue constructed from 127, prefix
increment (self = self + 1 through the checked binary + and operator=)
dispatches overflow_error, and the stored datum stays 127: neither 128
nor a wrapped -128 is produced. -/
theorem C4_prefix_increment_overflow :
    constructT i8v 127 = (none, ⟨i8v, 127⟩) ∧
    (preIncT ⟨i8v, 127⟩).1 = some overflowBin ∧
    overflowBin.kind = ErrKind.overflow ∧
    (preIncT ⟨i8v, 127⟩).2.m_t = 127 ∧
    (preIncT ⟨i8v, 127⟩).2.m_t ≠ 128 ∧
    (preIncT ⟨i8v, 127⟩).2.m_t ≠ -128 := by
  decide

/-- C5 (code bug): operator^= at the failing input.  The source writes
the body of operator^= as `*this = *this * rhs` — multiplication, not
bitwise-xor — so 3 ^= 5 on an unsigned 8-bit SafeValue stores 15, while
the bitwise-xor the claim (and the spec's uniform self = self OP rhs
scheme) prescribes gives 3 ^ 5 = 6. -/
theorem C5_xor_assign_bug :
    xorAssignT ⟨u8v, 3⟩ 5 = (none, ⟨u8v, 15⟩) ∧
    Int.xor 3 5 = 6 ∧
    (xorAssignT ⟨u8v, 3⟩ 5).2.m_t ≠ Int.xor 3 5 := by
  decide

/-- C6: for in-range operands of arbitrary, possibly differently-signed
representations, exactly one of less_than(a,b), less_than(b,a),
equal(a,b) holds; concretely less_than(-1, 0) and
less_than(-1, 4294967295) are true and less_than(4294967295, -1) is
false, with -1 signed 32-bit and the large operands unsigned 32-bit. -/
theorem C6_comparison_trichotomy :
    (∀ a b : TypedInt, a.inRange = true → b.inRange = true →
      ((less_than a b = true ∨ less_than b a = true ∨ equal a b = true) ∧
       ¬(less_than a b = true ∧ less_than b a = true) ∧
       ¬(less_than a b = true ∧ equal a b = true) ∧
       ¬(less_than b a = true ∧ equal a b = true))) ∧
    less_than ⟨⟨true, 32⟩, -1⟩ ⟨⟨false, 32⟩, 0⟩ = true ∧
    less_than ⟨⟨true, 32⟩, -1⟩ ⟨⟨false, 32⟩, 4294967295⟩ = true ∧
    less_than ⟨⟨false, 32⟩, 4294967295⟩ ⟨⟨true, 32⟩, -1⟩ = false := by
  refine ⟨?_, by decide, by decide, by decide⟩
  intro a b ha hb
  have hab := less_than_eq_decide a b ha hb
  have hba := less_than_eq_decide b a hb ha
  unfold equal
  rw [hab, hba]
  simp only [Bool.and_eq_true, Bool.not_eq_true', decide_eq_true_eq,
    decide_eq_false_iff_not]
  constructor
  · omega
  · constructor
    · omega
    · constructor
      · omega
      · omega

/-- C6 (witness): the trichotomy theorem applied to the concrete
mixed-signedness pair (-1 signed 32-bit, 0 unsigned 32-bit). -/
theorem C6_comparison_trichotomy_witness :
    (⟨⟨true, 32⟩, -1⟩ : TypedInt).inRange = true ∧
    (⟨⟨false, 32⟩, 0⟩ : TypedInt).inRange = true ∧
    ¬(less_than ⟨⟨true, 32⟩, -1⟩ ⟨⟨false, 32⟩, 0⟩ = true ∧
      less_than ⟨⟨false, 32⟩, 0⟩ ⟨⟨true, 32⟩, -1⟩ = true) :=
  ⟨by decide, by decide,
    (C6_comparison_trichotomy.1 ⟨⟨true, 32⟩, -1⟩ ⟨⟨false, 32⟩, 0⟩
      (by decide) (by decide)).2.1⟩

/-- C7: operator!=, operator>= and operator<= are the exact logical
complements of operator==, operator< and operator> respectively, for any
SafeValue and any right-hand operand of any representation. -/
theorem C7_relational_complements :
    ∀ (s : SafeState) (rhs : TypedInt),
    (op_ne s rhs = true ↔ ¬op_eq s rhs = true) ∧
    (op_ge s rhs = true ↔ ¬op_lt s rhs = true) ∧
    (op_le s rhs = true ↔ ¬op_gt s rhs = true) := by
  intro s rhs
  unfold op_ne op_eq op_ge op_lt op_le op_gt
  simp

/-- C8 (code bug): postfix decrement at the failing input.  For an
unsigned 8-bit SafeValue holding 5, the prospective result 4 validates
and no error is dispatched, but the stored datum is not decremented (the
body decrements a discarded local), and the return type is Derived &: the
caller receives a live reference to the object itself, so after the
original is further mutated to 9 the captured result reads 9, not the
pre-decrement value 5 the claim requires of an independent copy. -/
theorem C8_postdecrement_bug :
    u8v.validate (5 - 1) = true ∧
    postDecT ⟨u8v, 5⟩ = (none, ⟨u8v, 5⟩, Ret.selfRef) ∧
    (postDecT ⟨u8v, 5⟩).2.1.m_t ≠ 4 ∧
    readRet (postDecT ⟨u8v, 5⟩).2.2 (assignT (postDecT ⟨u8v, 5⟩).2.1 9).2 = 9 := by
  decide

/-- C9: unary minus is guarded by a static_assert on signedness, so for
an unsigned-representation variant the operation never runs and no
runtime error can surface; for a signed variant it computes
self = 0 - self through the checked subtraction path, dispatching
overflow_error at the boundary (0 - (-128) = 128 overflows signed 8-bit)
and negating in-range values. -/
theorem C9_unary_minus_signed_only :
    (∀ s : SafeState, s.variant.signed = false → negChecked s = none) ∧
    negChecked ⟨i8v, -128⟩ = some (some overflowBin, ⟨i8v, -128⟩) ∧
    overflowBin.kind = ErrKind.overflow ∧
    negChecked ⟨i8v, 5⟩ = some (none, ⟨i8v, -5⟩) := by
  refine ⟨?_, by decide, by decide, by decide⟩
  intro s h
  unfold negChecked unaryMinusCompiles
  simp [h]

/-- C9 (witness): the unary-minus theorem applied to a concrete unsigned
8-bit state. -/
theorem C9_unary_minus_signed_only_witness :
    (⟨u8v, 7⟩ : SafeState).variant.signed = false ∧ negChecked ⟨u8v, 7⟩ = none :=
  ⟨by decide, C9_unary_minus_signed_only.1 ⟨u8v, 7⟩ (by decide)⟩

/-- C10 (counterexample): the claim fails as stated.  The constructor's
`m_t(t)` initialiser converts the argument to the stored representation,
so constructing an unsigned 8-bit SafeValue from 300 dispatches
range_error, and if the policy returns the object exists — but its
stored datum is the wrapped conversion 44, not the out-of-range input
300. -/
theorem C10_counterexample :
    (constructR u8v 300).1 = [rangeInvalid] ∧
    (constructR u8v 300).2.m_t = 44 ∧
    (constructR u8v 300).2.m_t ≠ 300 := by
  decide

/-- C10 (amended): the value constructor stores the converted raw
argument into the datum (member-initialiser list) before validation
runs, so for any input outside the variant's domain, if range_error
returns normally the constructed object exists and its stored datum
equals the integral conversion of the input into the stored
representation — which always lies inside the representation's range,
and for an out-of-width input differs from the input itself. -/
theorem C10_construct_stores_converted :
    ∀ (v : Variant) (t : Int), v.validate t = false →
    (constructR v t).1 = [rangeInvalid] ∧
    (constructR v t).2.m_t = v.store t ∧
    validState (constructR v t).2 = true := by
  intro v t h
  unfold constructR
  simp [h, validState, Variant.store_valid]

/-- C10 (witness): the amended constructor theorem at the concrete
out-of-range input 300 for the unsigned 8-bit variant. -/
theorem C10_construct_stores_converted_witness :
    u8v.validate 300 = false ∧
    ((constructR u8v 300).1 = [rangeInvalid] ∧
     (constructR u8v 300).2.m_t = u8v.store 300 ∧
     validState (constructR u8v 300).2 = true) :=
  ⟨by decide, C10_construct_stores_converted u8v 300 (by decide)⟩

end SafeNumerics
